import Mathlib

/-!
Shallow embedding of `ocs2::QuadraticGaussNewtonCostBaseAD`
(src/ocs2_core/include/ocs2_core/cost/QuadraticGaussNewtonCostBaseAD.h).

The header declares the public operations (`cost`, `finalCost`,
`costQuadraticApproximation`, `finalCostQuadraticApproximation`,
`costDerivativeTime`, `finalCostDerivativeTime`, `initialize`) and gives
inline defaults for the virtual hooks (`getIntermediateParameters`,
`getNumIntermediateParameters`, `getFinalParameters`,
`getNumFinalParameters`, `finalCostFunction`).  The translation unit that
implements the public operations is not part of the sources here, so those
operations are modelled from the spec, which describes them by the
Gauss-Newton formulas over the residual value and its full Jacobian.

Scalars are modelled as rationals.  The user-supplied residual functions
are taped by CppAD over the concatenated vector [t; x; u] (respectively
[t; x]) with the parameter vector as non-taped dynamic parameters; the AD
interface returns the exact value and the exact full Jacobian of the
residual at a query point.  We therefore model a taped residual as a pair
of mathematical functions: its value and its full Jacobian over the taped
variables.
-/

namespace ocs2

open Matrix

/-- A quadratic approximation of a scalar function of (x, u):
the record returned by `costQuadraticApproximation`.  Field names follow
`ScalarFunctionQuadraticApproximation` (f, dfdx, dfdu, dfdxx, dfduu,
dfdux); `dfdux` is the input-state cross block, of shape inputDim ×
stateDim. -/
structure ScalarFunctionQuadraticApproximation (n m : ℕ) where
  f : ℚ
  dfdx : Fin n → ℚ
  dfdu : Fin m → ℚ
  dfdxx : Matrix (Fin n) (Fin n) ℚ
  dfduu : Matrix (Fin m) (Fin m) ℚ
  dfdux : Matrix (Fin m) (Fin n) ℚ
deriving DecidableEq

/-- The engine's user-supplied data: the residual functions f and g with
the exact Jacobians their CppAD tapes provide, and the parameter
providers.  Dimensions: n = stateDim, m = inputDim, q / qf = number of
intermediate / final parameters, r / rf = output dimension of f / g.
The intermediate tape is over [t; x; u] (1 + n + m columns, time first),
the final tape over [t; x] (1 + n columns). -/
structure CostAD (n m q qf r rf : ℕ) where
  intermediateCostFunction : ℚ → (Fin n → ℚ) → (Fin m → ℚ) → (Fin q → ℚ) → (Fin r → ℚ)
  intermediateJacobianFn : ℚ → (Fin n → ℚ) → (Fin m → ℚ) → (Fin q → ℚ) →
      Matrix (Fin r) (Fin (1 + n + m)) ℚ
  finalCostFunction : ℚ → (Fin n → ℚ) → (Fin qf → ℚ) → (Fin rf → ℚ)
  finalJacobianFn : ℚ → (Fin n → ℚ) → (Fin qf → ℚ) → Matrix (Fin rf) (Fin (1 + n)) ℚ
  getIntermediateParameters : ℚ → (Fin q → ℚ)
  getFinalParameters : ℚ → (Fin qf → ℚ)

/-- The engine's mutable evaluation cache: the members
`intermediateCostValues_`, `intermediateJacobian_`, `tapedTimeStateInput_`,
`finalCostValues_`, `finalJacobian_`, `tapedTimeState_` of
`QuadraticGaussNewtonCostBaseAD`. -/
structure EvalCache (n m r rf : ℕ) where
  intermediateCostValues : Fin r → ℚ
  intermediateJacobian : Matrix (Fin r) (Fin (1 + n + m)) ℚ
  tapedTimeStateInput : ℚ × (Fin n → ℚ) × (Fin m → ℚ)
  finalCostValues : Fin rf → ℚ
  finalJacobian : Matrix (Fin rf) (Fin (1 + n)) ℚ
  tapedTimeState : ℚ × (Fin n → ℚ)

variable {n m q qf r rf : ℕ}

/-- Column 0 of the full intermediate Jacobian: the time column ∂f/∂t. -/
def timeCol (J : Matrix (Fin r) (Fin (1 + n + m)) ℚ) : Fin r → ℚ :=
  fun i => J i ⟨0, by omega⟩

/-- Columns 1..n of the full intermediate Jacobian: the state block ∂f/∂x. -/
def stateCols (J : Matrix (Fin r) (Fin (1 + n + m)) ℚ) : Matrix (Fin r) (Fin n) ℚ :=
  Matrix.of fun i j => J i ⟨1 + j.val, by omega⟩

/-- Columns 1+n.. of the full intermediate Jacobian: the input block ∂f/∂u. -/
def inputCols (J : Matrix (Fin r) (Fin (1 + n + m)) ℚ) : Matrix (Fin r) (Fin m) ℚ :=
  Matrix.of fun i j => J i ⟨1 + n + j.val, by omega⟩

/-- Column 0 of the full final Jacobian: the time column ∂g/∂t. -/
def finalTimeCol (J : Matrix (Fin rf) (Fin (1 + n)) ℚ) : Fin rf → ℚ :=
  fun i => J i ⟨0, by omega⟩

/-- Columns 1..n of the full final Jacobian: the state block ∂g/∂x. -/
def finalStateCols (J : Matrix (Fin rf) (Fin (1 + n)) ℚ) : Matrix (Fin rf) (Fin n) ℚ :=
  Matrix.of fun i j => J i ⟨1 + j.val, by omega⟩

/-- Modelled from the spec (the translation unit implementing
`QuadraticGaussNewtonCostBaseAD::cost` is not among the sources):
`cost(t, x, u)` evaluates L = ½‖f(t,x,u,p)‖² with
p = getIntermediateParameters(t).  Pure, no caching. -/
def cost (c : CostAD n m q qf r rf) (t : ℚ) (x : Fin n → ℚ) (u : Fin m → ℚ) : ℚ :=
  let p := c.getIntermediateParameters t
  let fv := c.intermediateCostFunction t x u p
  (1 / 2) * (fv ⬝ᵥ fv)

/-- Modelled from the spec (implementation not among the sources):
`finalCost(t, x)` evaluates Φ = ½‖g(t,x,p)‖² with p = getFinalParameters(t). -/
def finalCost (c : CostAD n m q qf r rf) (t : ℚ) (x : Fin n → ℚ) : ℚ :=
  let p := c.getFinalParameters t
  let gv := c.finalCostFunction t x p
  (1 / 2) * (gv ⬝ᵥ gv)

/-- Modelled from the spec (implementation not among the sources):
`costQuadraticApproximation(t, x, u)` evaluates the residual f and its full
Jacobian, caches both together with the query point, and assembles the
Gauss-Newton quadratic model: value ½fᵗf, gradient blocks Jᵗf, Hessian
blocks JᵗJ, with J restricted to the state and input columns. -/
def costQuadraticApproximation (c : CostAD n m q qf r rf) (t : ℚ) (x : Fin n → ℚ)
    (u : Fin m → ℚ) (cache : EvalCache n m r rf) :
    ScalarFunctionQuadraticApproximation n m × EvalCache n m r rf :=
  let p := c.getIntermediateParameters t
  let fv := c.intermediateCostFunction t x u p
  let J := c.intermediateJacobianFn t x u p
  let Jx := stateCols J
  let Ju := inputCols J
  let L : ScalarFunctionQuadraticApproximation n m :=
    { f := (1 / 2) * (fv ⬝ᵥ fv)
      dfdx := Jx.transpose.mulVec fv
      dfdu := Ju.transpose.mulVec fv
      dfdxx := Jx.transpose * Jx
      dfduu := Ju.transpose * Ju
      dfdux := Ju.transpose * Jx }
  let cache' : EvalCache n m r rf :=
    { cache with
      intermediateCostValues := fv
      intermediateJacobian := J
      tapedTimeStateInput := (t, x, u) }
  (L, cache')

/-- Modelled from the spec (implementation not among the sources):
`finalCostQuadraticApproximation(t, x)`, analogous over g, producing
value / gradient_x / Hessian_xx and caching the evaluation. -/
def finalCostQuadraticApproximation (c : CostAD n m q qf r rf) (t : ℚ) (x : Fin n → ℚ)
    (cache : EvalCache n m r rf) :
    (ℚ × (Fin n → ℚ) × Matrix (Fin n) (Fin n) ℚ) × EvalCache n m r rf :=
  let p := c.getFinalParameters t
  let gv := c.finalCostFunction t x p
  let J := c.finalJacobianFn t x p
  let Jx := finalStateCols J
  let Phi := ((1 / 2) * (gv ⬝ᵥ gv), Jx.transpose.mulVec gv, Jx.transpose * Jx)
  let cache' : EvalCache n m r rf :=
    { cache with
      finalCostValues := gv
      finalJacobian := J
      tapedTimeState := (t, x) }
  (Phi, cache')

/-- Modelled from the spec (implementation not among the sources):
`costDerivativeTime(t, x, u)` returns ∂L/∂t at the cached point, computed
as fᵗ · (∂f/∂t) from the cached residual values and the time column of the
cached full Jacobian. -/
def costDerivativeTime (_c : CostAD n m q qf r rf) (_t : ℚ) (_x : Fin n → ℚ)
    (_u : Fin m → ℚ) (cache : EvalCache n m r rf) : ℚ :=
  cache.intermediateCostValues ⬝ᵥ timeCol cache.intermediateJacobian

/-- Modelled from the spec (implementation not among the sources):
`finalCostDerivativeTime(t, x)`, analogous for Φ. -/
def finalCostDerivativeTime (_c : CostAD n m q qf r rf) (_t : ℚ) (_x : Fin n → ℚ)
    (cache : EvalCache n m r rf) : ℚ :=
  cache.finalCostValues ⬝ᵥ finalTimeCol cache.finalJacobian

/-- The restriction J = ∂f/∂[x,u] of the full intermediate Jacobian to the
state and input columns, assembled as one matrix indexed by the disjoint
union of state and input indices. -/
def jacXU (J : Matrix (Fin r) (Fin (1 + n + m)) ℚ) : Matrix (Fin r) (Fin n ⊕ Fin m) ℚ :=
  Matrix.of fun i => Sum.elim (stateCols J i) (inputCols J i)

/-- The default `finalCostFunction` of the header, which returns
`ad_vector_t::Zero(1)`: a vector with exactly one entry, equal to zero,
for every time, state and parameter vector.  Output vectors are modelled
as lists so that the output dimension is the value `List.length`. -/
def finalCostFunctionDefaultList (_time : ℚ) (_state : List ℚ) (_parameters : List ℚ) :
    List ℚ := [0]

/-- The default `finalCostFunction` in the fixed-dimension setting of the
engine: output dimension 1, single entry 0 (header: `ad_vector_t::Zero(1)`). -/
def finalCostFunctionDefault : ℚ → (Fin n → ℚ) → (Fin qf → ℚ) → Fin 1 → ℚ :=
  fun _ _ _ _ => 0

/-- An engine whose derived class does not override `finalCostFunction`:
the final residual is the header's default (one zero entry), and its tape's
exact Jacobian is the 1 × (1+n) zero matrix, the derivative of the
constant-zero residual. -/
def withDefaultFinalCost
    (icf : ℚ → (Fin n → ℚ) → (Fin m → ℚ) → (Fin q → ℚ) → (Fin r → ℚ))
    (ijac : ℚ → (Fin n → ℚ) → (Fin m → ℚ) → (Fin q → ℚ) → Matrix (Fin r) (Fin (1 + n + m)) ℚ)
    (gip : ℚ → (Fin q → ℚ)) (gfp : ℚ → (Fin qf → ℚ)) : CostAD n m q qf r 1 :=
  { intermediateCostFunction := icf
    intermediateJacobianFn := ijac
    finalCostFunction := finalCostFunctionDefault
    finalJacobianFn := fun _ _ _ => 0
    getIntermediateParameters := gip
    getFinalParameters := gfp }

/-- The error raised by `initialize` (spec taxonomy, §7). -/
inductive InitError where
  | initializationError
deriving DecidableEq

/-- The outcome of a successful `initialize`: both tapes fully built. -/
structure TapePair where
  intermediateTapeBuilt : Bool
  finalTapeBuilt : Bool
deriving DecidableEq

/-- Modelled from the spec (the translation unit implementing
`QuadraticGaussNewtonCostBaseAD::initialize` is not among the sources):
`initialize` builds the tapes sized by the construction-time parameter
counts `getNumIntermediateParameters` / `getNumFinalParameters`; it fails
with `InitializationError` if those counts disagree with the dimensions of
the vectors the runtime providers `getIntermediateParameters` /
`getFinalParameters` return, and otherwise returns having fully built both
tapes.  Arguments: the two declared counts, then the two runtime provider
dimensions. -/
def engineInit (numIntermediateDeclared numFinalDeclared : ℕ)
    (numIntermediateRuntime numFinalRuntime : ℕ) : Except InitError TapePair :=
  if numIntermediateDeclared = numIntermediateRuntime ∧
      numFinalDeclared = numFinalRuntime then
    Except.ok ⟨true, true⟩
  else
    Except.error InitError.initializationError

/-- The end-to-end scenario's residual: f(t, x, u) = x - u with
stateDim = inputDim = 1 and no parameters.  Its exact full Jacobian over
[t; x; u] is the constant row [0, 1, -1]. -/
def exampleCostAD : CostAD 1 1 0 0 1 1 :=
  withDefaultFinalCost
    (fun _ x u _ _ => x 0 - u 0)
    (fun _ _ _ _ => Matrix.of fun _ k => if k.val = 0 then 0 else if k.val = 1 then 1 else -1)
    (fun _ _ => 0) (fun _ _ => 0)

/-- An all-zero evaluation cache, used as the initial engine state in
concrete scenarios. -/
def zeroCache : EvalCache n m r rf :=
  { intermediateCostValues := 0
    intermediateJacobian := 0
    tapedTimeStateInput := (0, 0, 0)
    finalCostValues := 0
    finalJacobian := 0
    tapedTimeState := (0, 0) }

/-- Modelled from the spec: the engine-level invocation of `cost`,
threading the evaluation cache the way the other engine calls do.  The
spec states `cost` is pure with no caching, so the cache passes through
untouched. -/
def costCall (c : CostAD n m q qf r rf) (t : ℚ) (x : Fin n → ℚ) (u : Fin m → ℚ)
    (cache : EvalCache n m r rf) : ℚ × EvalCache n m r rf :=
  (cost c t x u, cache)

/-- A Gram quadratic form is nonnegative: the key fact behind the
positive semidefiniteness of the Gauss-Newton Hessian. -/
theorem gram_quadratic_form_nonneg {l : Type*} [Fintype l] (A : Matrix (Fin r) l ℚ)
    (v : l → ℚ) : 0 ≤ v ⬝ᵥ (A.transpose * A).mulVec v := by
  have h : (A.transpose * A).mulVec v = A.transpose.mulVec (A.mulVec v) := by
    rw [Matrix.mulVec_mulVec]
  rw [h, Matrix.dotProduct_mulVec, Matrix.vecMul_transpose]
  exact Finset.sum_nonneg fun i _ => mul_self_nonneg _

/-- The Hessian blocks of a quadratic approximation assembled into the
full Hessian of the quadratic model over [x; u]: state-state block
`dfdxx`, input-input block `dfduu`, and the input-state cross block
`dfdux` filling the two off-diagonal positions symmetrically. -/
def blockHessian (L : ScalarFunctionQuadraticApproximation n m) :
    Matrix (Fin n ⊕ Fin m) (Fin n ⊕ Fin m) ℚ :=
  Matrix.of fun a b =>
    match a, b with
    | Sum.inl i, Sum.inl i' => L.dfdxx i i'
    | Sum.inl i, Sum.inr j => L.dfdux j i
    | Sum.inr j, Sum.inl i => L.dfdux j i
    | Sum.inr j, Sum.inr j' => L.dfduu j j'

/-- Claim C1: the quadratic approximation returned by
`costQuadraticApproximation(t, x, u)` satisfies the Gauss-Newton formulas
with p = getIntermediateParameters(t): its value is ½ fᵗf, its gradient
blocks are the state and input components of Jᵗf, and its Hessian blocks
are the corresponding blocks of JᵗJ, for J = ∂f/∂[x,u] the state-input
restriction of the full Jacobian at that point. -/
theorem C1_costQuadraticApproximation_gauss_newton (c : CostAD n m q qf r rf)
    (t : ℚ) (x : Fin n → ℚ) (u : Fin m → ℚ) (cache : EvalCache n m r rf) :
    (costQuadraticApproximation c t x u cache).1.f =
      (1 / 2) * (c.intermediateCostFunction t x u (c.getIntermediateParameters t) ⬝ᵥ
        c.intermediateCostFunction t x u (c.getIntermediateParameters t)) ∧
    (∀ i, (costQuadraticApproximation c t x u cache).1.dfdx i =
      ((jacXU (c.intermediateJacobianFn t x u (c.getIntermediateParameters t))).transpose.mulVec
        (c.intermediateCostFunction t x u (c.getIntermediateParameters t))) (Sum.inl i)) ∧
    (∀ j, (costQuadraticApproximation c t x u cache).1.dfdu j =
      ((jacXU (c.intermediateJacobianFn t x u (c.getIntermediateParameters t))).transpose.mulVec
        (c.intermediateCostFunction t x u (c.getIntermediateParameters t))) (Sum.inr j)) ∧
    (∀ i i', (costQuadraticApproximation c t x u cache).1.dfdxx i i' =
      ((jacXU (c.intermediateJacobianFn t x u (c.getIntermediateParameters t))).transpose *
        jacXU (c.intermediateJacobianFn t x u (c.getIntermediateParameters t)))
        (Sum.inl i) (Sum.inl i')) ∧
    (∀ j j', (costQuadraticApproximation c t x u cache).1.dfduu j j' =
      ((jacXU (c.intermediateJacobianFn t x u (c.getIntermediateParameters t))).transpose *
        jacXU (c.intermediateJacobianFn t x u (c.getIntermediateParameters t)))
        (Sum.inr j) (Sum.inr j')) ∧
    (∀ j i, (costQuadraticApproximation c t x u cache).1.dfdux j i =
      ((jacXU (c.intermediateJacobianFn t x u (c.getIntermediateParameters t))).transpose *
        jacXU (c.intermediateJacobianFn t x u (c.getIntermediateParameters t)))
        (Sum.inr j) (Sum.inl i)) := by
  refine ⟨rfl, fun i => ?_, fun j => ?_, fun i i' => ?_, fun j j' => ?_, fun j i => ?_⟩ <;>
    simp [costQuadraticApproximation, jacXU, stateCols, inputCols, Matrix.mulVec,
      Matrix.dotProduct, Matrix.mul_apply, Matrix.transpose_apply]

/-- Claim C2: the Hessian approximation returned by
`costQuadraticApproximation` — its blocks dfdxx, dfduu, dfdux assembled
into the full Hessian over [x; u] — is the Gram matrix JᵗJ of
J = ∂f/∂[x,u], hence positive semidefinite: vᵗ(JᵗJ)v ≥ 0 for every
(n+m)-dimensional vector v, mixed state-input components included; the
Hessian returned by `finalCostQuadraticApproximation` is likewise
positive semidefinite. -/
theorem C2_full_hessian_positive_semidefinite (c : CostAD n m q qf r rf)
    (t : ℚ) (x : Fin n → ℚ) (u : Fin m → ℚ) (cache : EvalCache n m r rf)
    (z : Fin n ⊕ Fin m → ℚ) (vf : Fin n → ℚ) :
    blockHessian (costQuadraticApproximation c t x u cache).1 =
      (jacXU (c.intermediateJacobianFn t x u (c.getIntermediateParameters t))).transpose *
        jacXU (c.intermediateJacobianFn t x u (c.getIntermediateParameters t)) ∧
    0 ≤ z ⬝ᵥ (blockHessian (costQuadraticApproximation c t x u cache).1).mulVec z ∧
    0 ≤ vf ⬝ᵥ (finalCostQuadraticApproximation c t x cache).1.2.2.mulVec vf := by
  have hb : blockHessian (costQuadraticApproximation c t x u cache).1 =
      (jacXU (c.intermediateJacobianFn t x u (c.getIntermediateParameters t))).transpose *
        jacXU (c.intermediateJacobianFn t x u (c.getIntermediateParameters t)) := by
    ext a b
    cases a <;> cases b <;>
      simp [blockHessian, costQuadraticApproximation, jacXU, stateCols, inputCols,
        Matrix.mul_apply, Matrix.transpose_apply, mul_comm]
  refine ⟨hb, ?_, gram_quadratic_form_nonneg _ vf⟩
  rw [hb]
  exact gram_quadratic_form_nonneg _ z

/-- Claim C3: `cost(t, x, u)` returns exactly ½ f(t,x,u,p)ᵗ f(t,x,u,p)
with p = getIntermediateParameters(t), and `finalCost(t, x)` returns
exactly ½ g(t,x,p)ᵗ g(t,x,p) with p = getFinalParameters(t). -/
theorem C3_cost_value_half_residual_norm (c : CostAD n m q qf r rf)
    (t : ℚ) (x : Fin n → ℚ) (u : Fin m → ℚ) :
    cost c t x u =
      (1 / 2) * (c.intermediateCostFunction t x u (c.getIntermediateParameters t) ⬝ᵥ
        c.intermediateCostFunction t x u (c.getIntermediateParameters t)) ∧
    finalCost c t x =
      (1 / 2) * (c.finalCostFunction t x (c.getFinalParameters t) ⬝ᵥ
        c.finalCostFunction t x (c.getFinalParameters t)) :=
  ⟨rfl, rfl⟩

/-- Claim C4: after `costQuadraticApproximation(t0, x0, u0)`, a
`costDerivativeTime(t0, x0, u0)` call with no intervening evaluation
returns fᵗ · (∂f/∂t): the dot product of the residual value at the cached
point with the time column of the full Jacobian at the cached point;
analogously for the final-cost pair. -/
theorem C4_costDerivativeTime_cache_coherent (c : CostAD n m q qf r rf)
    (t0 : ℚ) (x0 : Fin n → ℚ) (u0 : Fin m → ℚ) (cache : EvalCache n m r rf) :
    costDerivativeTime c t0 x0 u0 (costQuadraticApproximation c t0 x0 u0 cache).2 =
      c.intermediateCostFunction t0 x0 u0 (c.getIntermediateParameters t0) ⬝ᵥ
        timeCol (c.intermediateJacobianFn t0 x0 u0 (c.getIntermediateParameters t0)) ∧
    finalCostDerivativeTime c t0 x0 (finalCostQuadraticApproximation c t0 x0 cache).2 =
      c.finalCostFunction t0 x0 (c.getFinalParameters t0) ⬝ᵥ
        finalTimeCol (c.finalJacobianFn t0 x0 (c.getFinalParameters t0)) :=
  ⟨rfl, rfl⟩

/-- Claim C5: when the derived class does not override `finalCostFunction`
(the final residual is the header's default, a single zero entry with zero
Jacobian), `finalCost(t, x)` is exactly 0 for every t and x, and
`finalCostQuadraticApproximation(t, x)` returns value 0 with an all-zero
gradient and an all-zero Hessian. -/
theorem C5_default_final_cost_all_zero
    (icf : ℚ → (Fin n → ℚ) → (Fin m → ℚ) → (Fin q → ℚ) → (Fin r → ℚ))
    (ijac : ℚ → (Fin n → ℚ) → (Fin m → ℚ) → (Fin q → ℚ) → Matrix (Fin r) (Fin (1 + n + m)) ℚ)
    (gip : ℚ → (Fin q → ℚ)) (gfp : ℚ → (Fin qf → ℚ))
    (t : ℚ) (x : Fin n → ℚ) (cache : EvalCache n m r 1) :
    finalCost (withDefaultFinalCost icf ijac gip gfp) t x = 0 ∧
    (finalCostQuadraticApproximation (withDefaultFinalCost icf ijac gip gfp) t x cache).1.1
      = 0 ∧
    (∀ i, (finalCostQuadraticApproximation (withDefaultFinalCost icf ijac gip gfp) t x
      cache).1.2.1 i = 0) ∧
    (∀ i j, (finalCostQuadraticApproximation (withDefaultFinalCost icf ijac gip gfp) t x
      cache).1.2.2 i j = 0) := by
  refine ⟨?_, ?_, fun i => ?_, fun i j => ?_⟩ <;>
    simp [finalCost, finalCostQuadraticApproximation, withDefaultFinalCost,
      finalCostFunctionDefault, finalStateCols, Matrix.mulVec, Matrix.dotProduct,
      Matrix.mul_apply, Matrix.transpose_apply]

/-- Claim C6, counterexample: the default (unspecialized) final residual
does not have zero output dimension — the header's default
`finalCostFunction` returns `ad_vector_t::Zero(1)`, of dimension 1. -/
theorem C6_counterexample :
    ¬ (finalCostFunctionDefaultList 0 [] []).length = 0 := by
  simp [finalCostFunctionDefaultList]

/-- Claim C6, amended: when a residual f or g has zero output dimension,
value, gradient, and Hessian are all exactly zero and the engine does not
fail (Jᵗf and JᵗJ over a 0-row residual are empty sums, legitimately
zero); however, the default (unspecialized) final cost is not such a case:
its residual has output dimension 1 (a single zero entry), not 0. -/
theorem C6_zero_dim_residual_all_zero (c : CostAD n m q qf 0 0)
    (t : ℚ) (x : Fin n → ℚ) (u : Fin m → ℚ) (cache : EvalCache n m 0 0) :
    cost c t x u = 0 ∧
    finalCost c t x = 0 ∧
    (costQuadraticApproximation c t x u cache).1.f = 0 ∧
    (∀ i, (costQuadraticApproximation c t x u cache).1.dfdx i = 0) ∧
    (∀ j, (costQuadraticApproximation c t x u cache).1.dfdu j = 0) ∧
    (∀ i j, (costQuadraticApproximation c t x u cache).1.dfdxx i j = 0) ∧
    (∀ i j, (costQuadraticApproximation c t x u cache).1.dfduu i j = 0) ∧
    (∀ j i, (costQuadraticApproximation c t x u cache).1.dfdux j i = 0) ∧
    (finalCostQuadraticApproximation c t x cache).1.1 = 0 ∧
    (∀ i, (finalCostQuadraticApproximation c t x cache).1.2.1 i = 0) ∧
    (∀ i j, (finalCostQuadraticApproximation c t x cache).1.2.2 i j = 0) ∧
    (finalCostFunctionDefaultList t [] []).length = 1 := by
  refine ⟨?_, ?_, ?_, fun i => ?_, fun j => ?_, fun i j => ?_, fun i j => ?_,
    fun j i => ?_, ?_, fun i => ?_, fun i j => ?_, ?_⟩ <;>
    simp [cost, finalCost, costQuadraticApproximation, finalCostQuadraticApproximation,
      finalCostFunctionDefaultList, stateCols, inputCols, finalStateCols,
      Matrix.mulVec, Matrix.dotProduct, Matrix.mul_apply, Matrix.transpose_apply]

/-- Claim C7: for the residual f(t, x, u) = x - u with stateDim = 1 and
inputDim = 1, at t = 0, x = [2], u = [1]: cost is 0.5, gradient_x = [1],
gradient_u = [-1], Hessian_xx = [[1]], Hessian_uu = [[1]], and the
input-state cross block is [[-1]]. -/
theorem C7_end_to_end_scenario :
    cost exampleCostAD 0 ![2] ![1] = 1 / 2 ∧
    (costQuadraticApproximation exampleCostAD 0 ![2] ![1] zeroCache).1.dfdx = ![1] ∧
    (costQuadraticApproximation exampleCostAD 0 ![2] ![1] zeroCache).1.dfdu = ![-1] ∧
    (costQuadraticApproximation exampleCostAD 0 ![2] ![1] zeroCache).1.dfdxx = !![1] ∧
    (costQuadraticApproximation exampleCostAD 0 ![2] ![1] zeroCache).1.dfduu = !![1] ∧
    (costQuadraticApproximation exampleCostAD 0 ![2] ![1] zeroCache).1.dfdux = !![-1] := by
  refine ⟨?_, ?_, ?_, ?_, ?_, ?_⟩
  · norm_num [cost, exampleCostAD, withDefaultFinalCost, Matrix.dotProduct, Fin.sum_univ_one]
  · funext i
    fin_cases i
    norm_num [costQuadraticApproximation, exampleCostAD, withDefaultFinalCost, stateCols,
      inputCols, Matrix.mulVec, Matrix.dotProduct, Fin.sum_univ_one, Matrix.transpose_apply]
  · funext i
    fin_cases i
    norm_num [costQuadraticApproximation, exampleCostAD, withDefaultFinalCost, stateCols,
      inputCols, Matrix.mulVec, Matrix.dotProduct, Fin.sum_univ_one, Matrix.transpose_apply]
  all_goals
    funext i j
    fin_cases i
    fin_cases j
    norm_num [costQuadraticApproximation, exampleCostAD, withDefaultFinalCost, stateCols,
      inputCols, Matrix.mulVec, Matrix.dotProduct, Fin.sum_univ_one, Matrix.transpose_apply,
      Matrix.mul_apply]

/-- Claim C8: `cost` is pure with no caching: a `costCall` leaves the
evaluation cache unchanged and returns the pure value, so the results of
`costDerivativeTime` and `finalCostDerivativeTime` are the same before and
after an intervening `cost` call. -/
theorem C8_cost_pure_no_caching (c : CostAD n m q qf r rf) (t : ℚ) (x : Fin n → ℚ)
    (u : Fin m → ℚ) (cache : EvalCache n m r rf) :
    (costCall c t x u cache).2 = cache ∧
    (costCall c t x u cache).1 = cost c t x u ∧
    (∀ t' x' u', costDerivativeTime c t' x' u' (costCall c t x u cache).2 =
      costDerivativeTime c t' x' u' cache) ∧
    (∀ t' x', finalCostDerivativeTime c t' x' (costCall c t x u cache).2 =
      finalCostDerivativeTime c t' x' cache) :=
  ⟨rfl, rfl, fun _ _ _ => rfl, fun _ _ => rfl⟩

/-- Claim C9: `initialize` fails with `InitializationError` exactly when a
construction-time parameter count disagrees with the dimension of the
corresponding runtime provider's vector, and otherwise returns having
fully built both tapes. -/
theorem C9_initialize_parameter_check (a b a' b' : ℕ) :
    (a = a' ∧ b = b' → engineInit a b a' b' = Except.ok ⟨true, true⟩) ∧
    (¬ (a = a' ∧ b = b') →
      engineInit a b a' b' = Except.error InitError.initializationError) := by
  constructor
  · intro h
    simp [engineInit, h.1, h.2]
  · intro h
    simp [engineInit, h]

/-- Witness for C9: with matching counts (2, 3 | 2, 3) the engine
initializes with both tapes built; with a mismatch (2, 3 | 1, 3) it fails
with `InitializationError`. -/
theorem C9_initialize_parameter_check_witness :
    engineInit 2 3 2 3 = Except.ok ⟨true, true⟩ ∧
    engineInit 2 3 1 3 = Except.error InitError.initializationError :=
  ⟨(C9_initialize_parameter_check 2 3 2 3).1 ⟨rfl, rfl⟩,
    (C9_initialize_parameter_check 2 3 1 3).2 (by simp)⟩

/-- Claim C10: the default (unoverridden) `finalCostFunction` returns, for
every time, state, and parameter vector, the vector [0]: output dimension
exactly 1, single entry 0 — so the default final cost Φ = 0 comes from a
one-dimensional zero residual, not from a zero-output-dimension one. -/
theorem C10_default_final_residual_dimension_one (t : ℚ) (s p : List ℚ)
    (tq : ℚ) (x : Fin n → ℚ) (pq : Fin qf → ℚ) (i : Fin 1) :
    finalCostFunctionDefaultList t s p = [0] ∧
    (finalCostFunctionDefaultList t s p).length = 1 ∧
    finalCostFunctionDefault tq x pq i = 0 :=
  ⟨rfl, rfl, rfl⟩

end ocs2
